import Mathlib

/-! # FabricMon configuration loader

A shallow embedding of `src/config/config.go` (package `config`) and the
properties of its decode-then-validate pipeline.

Conventions of the embedding.

* A Go `string` is a Lean `String`; `uint`, `uint64` and `logrus.Level` values
  are natural numbers, `time.Duration` is an integer count of nanoseconds.
* A Go `error` is a value of `Error`; the `nil` error is `none`.
* A method with a pointer receiver that writes through it returns the new value
  of the receiver next to its Go result.
* The file system is seen through the outcome of `unix.Access(path, unix.W_OK)`,
  a function from paths to `Option Errno`; a function that may probe the file
  system also returns the list of paths it probed, in order.
* The packages `strings`, `logrus` and `yaml` are libraries outside the
  repository; what `config.go` uses of them is modelled in the namespaces of
  the same names. What the decoder owes to `time.ParseDuration`, to
  floating-point arithmetic or to the platform is a parameter of its model.
-/

/-! ## Library: `strings` -/

namespace strings

/-- Modelled from the spec: `unicode.ToLower` of Go's standard library, not
under `src/`, as far as it decides a comparison with an ASCII word: the ASCII
capitals, and the two other code points of Unicode whose lower case is an ASCII
letter (U+0130 gives `i`, U+212A gives `k`). Every other code point is returned
as it is; its lower case in Go is outside ASCII too. -/
def toLowerRune (c : Char) : Char :=
  if 65 ≤ c.toNat ∧ c.toNat ≤ 90 then Char.ofNat (c.toNat + 32)
  else if c.toNat = 0x130 then 'i'
  else if c.toNat = 0x212A then 'k'
  else c

/-- Modelled from the spec: `strings.ToLower` of Go's standard library, not
under `src/`, by which logrus matches a text against the severity names "per
host convention": every code point mapped by `toLowerRune`. -/
def ToLower (s : String) : String :=
  String.mk (s.toList.map toLowerRune)

/-- The relation of `strings.Contains`: `substr` occurs in `s`. -/
def Contains (s substr : String) : Prop :=
  substr.toList <:+: s.toList

instance (s substr : String) : Decidable (Contains s substr) :=
  inferInstanceAs (Decidable (substr.toList <:+: s.toList))

end strings

/-! ## Library: `logrus` -/

namespace logrus

/-- The type `logrus.Level`, a `uint32`. -/
abbrev Level := Nat

def PanicLevel : Level := 0
def FatalLevel : Level := 1
def ErrorLevel : Level := 2
def WarnLevel : Level := 3
def InfoLevel : Level := 4
def DebugLevel : Level := 5
def TraceLevel : Level := 6

/-- The slice `logrus.AllLevels`: the seven severity levels. -/
def AllLevels : List Level :=
  [PanicLevel, FatalLevel, ErrorLevel, WarnLevel, InfoLevel, DebugLevel, TraceLevel]

/-- The severity names, as lower-case words. -/
def levelNames : List String :=
  ["panic", "fatal", "error", "warn", "warning", "info", "debug", "trace"]

/-- A text is a recognized severity name when its lower case is one of
`levelNames`. -/
def Recognized (text : String) : Prop :=
  strings.ToLower text ∈ levelNames

instance (text : String) : Decidable (Recognized text) :=
  inferInstanceAs (Decidable (strings.ToLower text ∈ levelNames))

end logrus

namespace config

/-- A failing result of a system call (`unix.Errno`), given by the text of its
`Error` method. -/
structure Errno where
  Error : String
deriving DecidableEq, Repr

/-- The Go `error` values that `ReadConfig` can return.

* `EOF` is `io.EOF`, returned by the decoder when the stream holds no document.
* `TypeError` is the `*yaml.TypeError` of the decoder: one value or more of the
  document cannot be converted to the type of its field (the list of messages
  it carries is not represented).
* `notValidLevel lvl` is the error of `logrus.ParseLevel`,
  `fmt.Errorf("not a valid logrus Level: %q", lvl)`.
* `Errorf msg` is an error made by `fmt.Errorf` in package `config` (or by
  `Level.MarshalText`); `msg` is the formatted text. -/
inductive Error where
  | EOF
  | TypeError
  | notValidLevel (lvl : String)
  | Errorf (msg : String)
deriving DecidableEq, Repr

end config

deriving instance DecidableEq for Except

namespace logrus

open config

/-- Modelled from the spec: `logrus.ParseLevel`, a function of the logrus
library, which is not under `src/`. The raw text is matched against the
severity names trace, debug, info, warn, error, fatal and panic, by the
convention of logrus (the text is lower-cased first and `warning` is accepted
for `warn`); a text outside that set fails with an error carrying the text. -/
def ParseLevel (lvl : String) : Except Error Level :=
  let s := strings.ToLower lvl
  if s = "panic" then .ok PanicLevel
  else if s = "fatal" then .ok FatalLevel
  else if s = "error" then .ok ErrorLevel
  else if s = "warn" ∨ s = "warning" then .ok WarnLevel
  else if s = "info" then .ok InfoLevel
  else if s = "debug" then .ok DebugLevel
  else if s = "trace" then .ok TraceLevel
  else .error (Error.notValidLevel lvl)

/-- Modelled from the spec: `logrus.Level.MarshalText`, not under `src/`: the
name of each of the seven levels, an error for any other number. -/
def MarshalText (level : Level) : Except Error String :=
  if level = TraceLevel then .ok "trace"
  else if level = DebugLevel then .ok "debug"
  else if level = InfoLevel then .ok "info"
  else if level = WarnLevel then .ok "warning"
  else if level = ErrorLevel then .ok "error"
  else if level = FatalLevel then .ok "fatal"
  else if level = PanicLevel then .ok "panic"
  else .error (Error.Errorf ("not a valid logrus level " ++ toString level))

/-- Modelled from the spec: `logrus.Level.String`, not under `src/`: the text
of `MarshalText`, or `unknown`. -/
def Level.String (level : Level) : String :=
  match MarshalText level with
  | .ok b => b
  | .error _ => "unknown"

end logrus

namespace config

/-! ## Data model (`config.go`, lines 18-53 and 65-66) -/

/-- Value of `time.Duration`: nanoseconds. -/
abbrev Duration := Int

/-- The constant `time.Second`. -/
def Second : Duration := 1000000000

/-- The type `type LogLevel logrus.Level`, a wrapper of `logrus.Level`. -/
structure LogLevel where
  level : logrus.Level := 0
deriving DecidableEq, Repr

/-- The struct `InfluxDBConf`; a field left out has the zero value of Go. -/
structure InfluxDBConf where
  URL : String := ""
  Database : String := ""
  Username : String := ""
  Password : String := ""
  RetentionPolicy : String := ""
  Timeout : Duration := 0
deriving DecidableEq, Repr

/-- The struct `LoggingConf`. -/
structure LoggingConf where
  LogLevel : LogLevel := {}
deriving DecidableEq, Repr

/-- The struct `TopologyConf`. -/
structure TopologyConf where
  Enabled : Bool := false
  OutputDir : String := ""
deriving DecidableEq, Repr

/-- The struct `FabricmonConf`, the main configuration struct. -/
structure FabricmonConf where
  PollInterval : Duration := 0
  ResetThreshold : Nat := 0
  Mkey : Nat := 0
  InfluxDB : List InfluxDBConf := []
  Logging : LoggingConf := {}
  Topology : TopologyConf := {}
deriving DecidableEq, Repr

/-! ## Operations -/

/-- Method `func (conf *FabricmonConf) validate() error`. -/
def FabricmonConf.validate (conf : FabricmonConf) : Option Error :=
  if conf.ResetThreshold < 25 ∨ conf.ResetThreshold > 100 then
    some (Error.Errorf "counter_reset_threshold must be between 25 and 100")
  else
    none

/-- Method `func (conf *TopologyConf) validate() error`. `Access path` is the outcome
of `unix.Access(path, unix.W_OK)`; the second component lists the paths
probed by the call. -/
def TopologyConf.validate (conf : TopologyConf) (Access : String → Option Errno) :
    Option Error × List String :=
  if conf.Enabled then
    match Access conf.OutputDir with
    | some err => (some (Error.Errorf ("topology output directory: " ++ err.Error)),
        [conf.OutputDir])
    | none => (none, [conf.OutputDir])
  else
    (none, [])

/-- Method `func (l *LogLevel) UnmarshalText(text []byte) error`: the receiver
after the call, and the returned error; `text` is `string(text)`. -/
def LogLevel.UnmarshalText (l : LogLevel) (text : String) : LogLevel × Option Error :=
  match logrus.ParseLevel text with
  | .ok level => (LogLevel.mk level, none)
  | .error err => (l, some err)

/-- Method `func (l LogLevel) String() string` (declared before `UnmarshalText`
in the source). -/
def LogLevel.String (l : LogLevel) : String :=
  logrus.Level.String l.level

/-- The error value that `FabricmonConf.validate` returns (line 30). -/
def rangeError : Error :=
  Error.Errorf "counter_reset_threshold must be between 25 and 100"

/-- What `ReadConfig` returns, with the paths it probed. -/
structure ReadResult where
  conf : Option FabricmonConf
  err : Option Error
  probes : List String
deriving DecidableEq, Repr

/-- The configuration `ReadConfig` builds before decoding (lines 86-91). -/
def defaults : FabricmonConf :=
  { PollInterval := Second * 10,
    Logging := { LogLevel := LogLevel.mk logrus.InfoLevel } }

/-- Function `func ReadConfig(r io.Reader) (*FabricmonConf, error)`. `Decode conf` is
`yaml.NewDecoder(r).Decode(conf)`: the decoded structure, or the error of the
decoder. -/
def ReadConfig (Decode : FabricmonConf → Except Error FabricmonConf)
    (Access : String → Option Errno) : ReadResult :=
  let conf := defaults
  match Decode conf with
  | .error err => ⟨none, some err, []⟩
  | .ok conf =>
    match conf.validate with
    | some err => ⟨none, some err, []⟩
    | none =>
      match conf.Topology.validate Access with
      | (some err, probes) => ⟨none, some err, probes⟩
      | (none, probes) => ⟨some conf, none, probes⟩

end config

/-! ## Library: `yaml`

The decoder is given a document that maps onto the shape of `FabricmonConf`.
A key is absent, present but empty (a YAML null), or present with a value of
the kind of its field; the sections `Logging` and `Topology` are mappings when
they have a value, and `InfluxDB` is a sequence of mappings. Three kinds of
value are kept as the document writes them, since their conversion can fail:
the integers of `counter_reset_threshold` and `m_key` (the fields are
unsigned), the text of `log_level` (converted by `LogLevel.UnmarshalText`) and
the text of a duration (`poll_interval`, `Timeout`). -/

namespace yaml

open config

/-- A key that is present in a mapping, an entry of a sequence, or the document
of a stream: `null` when it is present but empty (nothing after the colon, `~`
or `null`), `val v` when it has the value `v`. -/
inductive Node (α : Type) where
  | null
  | val (v : α)
deriving DecidableEq, Repr

/-- The mapping of one entry of the `InfluxDB` sequence. -/
structure InfluxDBNode where
  URL : Option (Node String) := none
  Database : Option (Node String) := none
  Username : Option (Node String) := none
  Password : Option (Node String) := none
  retention_policy : Option (Node String) := none
  Timeout : Option (Node String) := none
deriving DecidableEq, Repr

/-- The mapping of the `Logging` section. -/
structure LoggingNode where
  log_level : Option (Node String) := none
deriving DecidableEq, Repr

/-- The mapping of the `Topology` section. -/
structure TopologyNode where
  Enabled : Option (Node Bool) := none
  output_dir : Option (Node String) := none
deriving DecidableEq, Repr

/-- The mapping of a document. -/
structure Document where
  poll_interval : Option (Node String) := none
  counter_reset_threshold : Option (Node Int) := none
  m_key : Option (Node Int) := none
  InfluxDB : Option (Node (List (Node InfluxDBNode))) := none
  Logging : Option (Node LoggingNode) := none
  Topology : Option (Node TopologyNode) := none
deriving DecidableEq, Repr

/-- Conversions of the decoder that rest on other libraries, on floating-point
arithmetic or on the platform, taken as parameters.

* `duration text` is the `time.Duration` the decoder makes of the scalar `text`
  for a duration field (an integer of nanoseconds, or a text that
  `time.ParseDuration` accepts, such as `10s`), `none` when it makes none.
* `floatToUint v` is what the decoder stores in an unsigned field for an
  integer `v` outside `[-2^63, 2^64)`, which the parser reads as a
  floating-point number, `none` when it stores nothing. -/
structure Conversions where
  duration : String → Option Duration
  floatToUint : Int → Option Nat

/-- Size of a `uint` in bits (`bits.UintSize` on a 64-bit platform); `uint64`
has the same size. -/
def UintSize : Nat := 64

/-- Modelled from the spec: decoding a key into a field whose conversion cannot
fail (a text into a `string`, a boolean into a `bool`). An absent key leaves
the field as it is, an empty key overwrites it with the zero value, a value
overwrites it. -/
def decodeValue {α : Type} (key : Option (Node α)) (out zero : α) : α :=
  match key with
  | none => out
  | some .null => zero
  | some (.val v) => v

/-- Modelled from the spec: decoding an integer key into a `uint` or `uint64`
field. A value the field can hold is stored; a negative integer "cannot be
converted to its target type" and is a type error; for an integer that the
parser reads as a floating-point number the outcome is `conv.floatToUint`. -/
def decodeUint (conv : Conversions) (key : Option (Node Int)) (out : Nat) :
    Except Error Nat :=
  match key with
  | none => .ok out
  | some .null => .ok 0
  | some (.val v) =>
    if 0 ≤ v ∧ v < 2 ^ UintSize then .ok v.toNat
    else if -9223372036854775808 ≤ v ∧ v < 0 then .error Error.TypeError
    else
      match conv.floatToUint v with
      | some n => if n < 2 ^ UintSize then .ok n else .error Error.TypeError
      | none => .error Error.TypeError

/-- Modelled from the spec: decoding a duration key into a `time.Duration`
field, an `int64`: the duration `conv.duration` makes of the text, a type error
when it makes none. -/
def decodeDuration (conv : Conversions) (key : Option (Node String)) (out : Duration) :
    Except Error Duration :=
  match key with
  | none => .ok out
  | some .null => .ok 0
  | some (.val text) =>
    match conv.duration text with
    | some d =>
      if -9223372036854775808 ≤ d ∧ d < 9223372036854775808 then .ok d
      else .error Error.TypeError
    | none => .error Error.TypeError

/-- Modelled from the spec: decoding the `Logging` section. The text of
`log_level` goes through `LogLevel.UnmarshalText` on the field, and its error
is the error of the decoder; an empty section or an empty `log_level`
overwrites with the zero value. -/
def decodeLogging (key : Option (Node LoggingNode)) (out : LoggingConf) :
    Except Error LoggingConf :=
  match key with
  | none => .ok out
  | some .null => .ok {}
  | some (.val n) =>
    match n.log_level with
    | none => .ok out
    | some .null => .ok { LogLevel := {} }
    | some (.val text) =>
      match out.LogLevel.UnmarshalText text with
      | (l, none) => .ok { LogLevel := l }
      | (_, some err) => .error err

/-- Modelled from the spec: decoding the `Topology` section. -/
def decodeTopology (key : Option (Node TopologyNode)) (out : TopologyConf) : TopologyConf :=
  match key with
  | none => out
  | some .null => {}
  | some (.val n) =>
    { Enabled := decodeValue n.Enabled out.Enabled false,
      OutputDir := decodeValue n.output_dir out.OutputDir "" }

/-- Modelled from the spec: decoding one entry of the `InfluxDB` sequence into
a fresh (zero) `InfluxDBConf`. -/
def decodeInfluxDB (conv : Conversions) (entry : Node InfluxDBNode) :
    Except Error InfluxDBConf :=
  match entry with
  | .null => .ok {}
  | .val n =>
    match decodeDuration conv n.Timeout 0 with
    | .error err => .error err
    | .ok timeout =>
      .ok { URL := decodeValue n.URL "" "",
            Database := decodeValue n.Database "" "",
            Username := decodeValue n.Username "" "",
            Password := decodeValue n.Password "" "",
            RetentionPolicy := decodeValue n.retention_policy "" "",
            Timeout := timeout }

/-- Modelled from the spec: decoding the entries of a sequence, in order. -/
def decodeSequence (conv : Conversions) :
    List (Node InfluxDBNode) → Except Error (List InfluxDBConf)
  | [] => .ok []
  | entry :: rest =>
    match decodeInfluxDB conv entry with
    | .error err => .error err
    | .ok c =>
      match decodeSequence conv rest with
      | .error err => .error err
      | .ok cs => .ok (c :: cs)

/-- Modelled from the spec: decoding the `InfluxDB` key into the slice; a
sequence replaces the slice. -/
def decodeSlice (conv : Conversions) (key : Option (Node (List (Node InfluxDBNode))))
    (out : List InfluxDBConf) : Except Error (List InfluxDBConf) :=
  match key with
  | none => .ok out
  | some .null => .ok []
  | some (.val entries) => decodeSequence conv entries

/-- Modelled from the spec: `yaml.NewDecoder(r).Decode(conf)`, a method of the
yaml library, which is not under `src/`; `r` is the document the stream holds,
`none` for a stream without a document (the decoder then returns `io.EOF`).
Decoded fields overwrite the values of `conf` where present in the document,
with the zero value where present but empty, and leave them intact where
absent. An error of `UnmarshalText` stops the decoder at once; values that
cannot be converted are reported in one `TypeError` when the document has been
gone through. -/
def Decode (conv : Conversions) (r : Option (Node Document)) (conf : FabricmonConf) :
    Except Error FabricmonConf :=
  match r with
  | none => .error Error.EOF
  | some .null => .ok {}
  | some (.val doc) =>
    match decodeLogging doc.Logging conf.Logging with
    | .error err => .error err
    | .ok logging =>
      match decodeDuration conv doc.poll_interval conf.PollInterval with
      | .error err => .error err
      | .ok pollInterval =>
        match decodeUint conv doc.counter_reset_threshold conf.ResetThreshold with
        | .error err => .error err
        | .ok threshold =>
          match decodeUint conv doc.m_key conf.Mkey with
          | .error err => .error err
          | .ok mkey =>
            match decodeSlice conv doc.InfluxDB conf.InfluxDB with
            | .error err => .error err
            | .ok influxDB =>
              .ok { PollInterval := pollInterval,
                    ResetThreshold := threshold,
                    Mkey := mkey,
                    InfluxDB := influxDB,
                    Logging := logging,
                    Topology := decodeTopology doc.Topology conf.Topology }

/-! ### Reading a document -/

/-- The state of a key of a section: absent when the section is absent, empty
when the section is empty, and as the mapping of the section has it
otherwise. -/
def sectionKey {σ α : Type} (sec : Option (Node σ)) (key : σ → Option (Node α)) :
    Option (Node α) :=
  match sec with
  | none => none
  | some .null => some .null
  | some (.val n) => key n

/-- The key `Logging.log_level` of a document. -/
def Document.logLevelKey (doc : Document) : Option (Node String) :=
  sectionKey doc.Logging LoggingNode.log_level

/-- The key `Topology.Enabled` of a document. -/
def Document.enabledKey (doc : Document) : Option (Node Bool) :=
  sectionKey doc.Topology TopologyNode.Enabled

/-- The key `Topology.output_dir` of a document. -/
def Document.outputDirKey (doc : Document) : Option (Node String) :=
  sectionKey doc.Topology TopologyNode.output_dir

/-- The text of `Logging.log_level` in a document, when it has one. -/
def Document.levelText (doc : Document) : Option String :=
  match doc.logLevelKey with
  | some (.val text) => some text
  | _ => none

/-- The decode rule of the spec for one key, as a relation between the key and
the field after decoding: the field is `kept` (the value before decoding) when
the key is absent, `zero` when the key is present but empty, and a value that
`denotes` relates to `v` when the key has the value `v`. -/
def Overlays {α β : Type} (key : Option (Node α)) (kept zero : β) (denotes : α → β → Prop)
    (field : β) : Prop :=
  match key with
  | none => field = kept
  | some .null => field = zero
  | some (.val v) => denotes v field

/-- The decode rule of the spec for one entry of the `InfluxDB` sequence: the
entry is decoded into a fresh structure, key by key. -/
def EntryDecoded (conv : Conversions) (entry : Node InfluxDBNode) (c : InfluxDBConf) : Prop :=
  match entry with
  | .null => c = {}
  | .val n =>
    Overlays n.URL "" "" (fun text field => field = text) c.URL ∧
    Overlays n.Database "" "" (fun text field => field = text) c.Database ∧
    Overlays n.Username "" "" (fun text field => field = text) c.Username ∧
    Overlays n.Password "" "" (fun text field => field = text) c.Password ∧
    Overlays n.retention_policy "" "" (fun text field => field = text) c.RetentionPolicy ∧
    Overlays n.Timeout 0 0 (fun text field => conv.duration text = some field) c.Timeout

/-- Conversions for the concrete evaluations of this file: the duration texts
`5s` and `10s`, and no long integer stored. -/
def sampleConversions : Conversions :=
  { duration := fun text =>
      if text = "5s" then some (5 * Second)
      else if text = "10s" then some (10 * Second)
      else none,
    floatToUint := fun _ => none }

end yaml

/-! ## Lemmas on the library models -/

namespace logrus

open config

lemma ParseLevel_of_not_recognized (text : String) (h : ¬ Recognized text) :
    ParseLevel text = .error (Error.notValidLevel text) := by
  simp only [Recognized, levelNames, List.mem_cons, List.not_mem_nil, or_false, not_or] at h
  obtain ⟨h1, h2, h3, h4, h5, h6, h7, h8⟩ := h
  simp [ParseLevel, h1, h2, h3, h4, h5, h6, h7, h8]

lemma ParseLevel_of_recognized (text : String) (h : Recognized text) :
    ∃ level, level ∈ AllLevels ∧ ParseLevel text = .ok level ∧
      (Level.String level = strings.ToLower text ∨
        (level = WarnLevel ∧ strings.ToLower text = "warn")) := by
  simp only [Recognized, levelNames, List.mem_cons, List.not_mem_nil, or_false] at h
  rcases h with h | h | h | h | h | h | h | h
  · exact ⟨PanicLevel, by decide, by simp [ParseLevel, h], by rw [h]; exact Or.inl (by decide)⟩
  · exact ⟨FatalLevel, by decide, by simp [ParseLevel, h], by rw [h]; exact Or.inl (by decide)⟩
  · exact ⟨ErrorLevel, by decide, by simp [ParseLevel, h], by rw [h]; exact Or.inl (by decide)⟩
  · exact ⟨WarnLevel, by decide, by simp [ParseLevel, h], Or.inr ⟨rfl, h⟩⟩
  · exact ⟨WarnLevel, by decide, by simp [ParseLevel, h], by rw [h]; exact Or.inl (by decide)⟩
  · exact ⟨InfoLevel, by decide, by simp [ParseLevel, h], by rw [h]; exact Or.inl (by decide)⟩
  · exact ⟨DebugLevel, by decide, by simp [ParseLevel, h], by rw [h]; exact Or.inl (by decide)⟩
  · exact ⟨TraceLevel, by decide, by simp [ParseLevel, h], by rw [h]; exact Or.inl (by decide)⟩

end logrus

namespace logrus

open config

lemma ParseLevel_error (text : String) (e : Error) (h : ParseLevel text = .error e) :
    e = Error.notValidLevel text ∧ ¬ Recognized text := by
  by_cases hrec : Recognized text
  · obtain ⟨level, -, hp, -⟩ := ParseLevel_of_recognized text hrec
    rw [hp] at h
    simp at h
  · rw [ParseLevel_of_not_recognized text hrec] at h
    simp only [Except.error.injEq] at h
    exact ⟨h.symm, hrec⟩

end logrus

namespace yaml

open config

/-! ### Errors of the decoder -/

lemma decodeUint_error (conv : Conversions) (key : Option (Node Int)) (out : Nat) (e : Error)
    (h : decodeUint conv key out = .error e) : e = Error.TypeError := by
  unfold decodeUint at h
  rcases key with _ | _ | v
  · simp at h
  · simp at h
  · simp only at h
    split_ifs at h with h1 h2
    · simp only [Except.error.injEq] at h
      exact h.symm
    · cases hf : conv.floatToUint v with
      | none =>
        rw [hf] at h
        simp only [Except.error.injEq] at h
        exact h.symm
      | some n =>
        rw [hf] at h
        simp only at h
        split_ifs at h
        simp only [Except.error.injEq] at h
        exact h.symm

lemma decodeDuration_error (conv : Conversions) (key : Option (Node String)) (out : Duration)
    (e : Error) (h : decodeDuration conv key out = .error e) : e = Error.TypeError := by
  unfold decodeDuration at h
  rcases key with _ | _ | text
  · simp at h
  · simp at h
  · simp only at h
    cases hd : conv.duration text with
    | none =>
      rw [hd] at h
      simp only [Except.error.injEq] at h
      exact h.symm
    | some d =>
      rw [hd] at h
      simp only at h
      split_ifs at h
      simp only [Except.error.injEq] at h
      exact h.symm

lemma decodeInfluxDB_error (conv : Conversions) (entry : Node InfluxDBNode) (e : Error)
    (h : decodeInfluxDB conv entry = .error e) : e = Error.TypeError := by
  unfold decodeInfluxDB at h
  rcases entry with _ | n
  · simp at h
  · simp only at h
    cases hd : decodeDuration conv n.Timeout 0 with
    | error err =>
      rw [hd] at h
      simp only [Except.error.injEq] at h
      rw [← h]
      exact decodeDuration_error conv _ _ err hd
    | ok timeout =>
      rw [hd] at h
      simp at h

lemma decodeSequence_error (conv : Conversions) (entries : List (Node InfluxDBNode))
    (e : Error) (h : decodeSequence conv entries = .error e) : e = Error.TypeError := by
  induction entries generalizing e with
  | nil => simp [decodeSequence] at h
  | cons entry rest ih =>
    simp only [decodeSequence] at h
    cases hc : decodeInfluxDB conv entry with
    | error err =>
      rw [hc] at h
      simp only [Except.error.injEq] at h
      rw [← h]
      exact decodeInfluxDB_error conv entry err hc
    | ok c =>
      rw [hc] at h
      simp only at h
      cases hr : decodeSequence conv rest with
      | error err =>
        rw [hr] at h
        simp only [Except.error.injEq] at h
        rw [← h]
        exact ih err hr
      | ok cs =>
        rw [hr] at h
        simp at h

lemma decodeSlice_error (conv : Conversions) (key : Option (Node (List (Node InfluxDBNode))))
    (out : List InfluxDBConf) (e : Error) (h : decodeSlice conv key out = .error e) :
    e = Error.TypeError := by
  unfold decodeSlice at h
  rcases key with _ | _ | entries
  · simp at h
  · simp at h
  · exact decodeSequence_error conv entries e h

lemma decodeLogging_error (key : Option (Node LoggingNode)) (out : LoggingConf) (e : Error)
    (h : decodeLogging key out = .error e) :
    ∃ n text, key = some (.val n) ∧ n.log_level = some (.val text) ∧
      e = Error.notValidLevel text ∧ ¬ logrus.Recognized text := by
  unfold decodeLogging at h
  rcases key with _ | _ | n
  · simp at h
  · simp at h
  · simp only at h
    rcases hk : n.log_level with _ | _ | text
    · rw [hk] at h
      simp at h
    · rw [hk] at h
      simp at h
    · rw [hk] at h
      simp only [LogLevel.UnmarshalText] at h
      cases hp : logrus.ParseLevel text with
      | ok level =>
        rw [hp] at h
        simp at h
      | error err =>
        rw [hp] at h
        simp only [Except.error.injEq] at h
        obtain ⟨he, hrec⟩ := logrus.ParseLevel_error text err hp
        exact ⟨n, text, rfl, hk, by rw [← h, he], hrec⟩

lemma decodeLogging_of_unrecognized (doc : Document) (out : LoggingConf) (text : String)
    (ht : doc.levelText = some text) (hbad : ¬ logrus.Recognized text) :
    decodeLogging doc.Logging out = .error (Error.notValidLevel text) := by
  unfold Document.levelText Document.logLevelKey sectionKey at ht
  unfold decodeLogging
  rcases hL : doc.Logging with _ | _ | n
  · rw [hL] at ht
    simp at ht
  · rw [hL] at ht
    simp at ht
  · rw [hL] at ht
    simp only at ht ⊢
    rcases hk : n.log_level with _ | _ | text2
    · rw [hk] at ht
      simp at ht
    · rw [hk] at ht
      simp at ht
    · rw [hk] at ht
      simp only [Option.some.injEq] at ht
      subst ht
      simp only [LogLevel.UnmarshalText, logrus.ParseLevel_of_not_recognized text2 hbad]

/-- An error of the decoder is `io.EOF`, a type error or the error of
`UnmarshalText`; it is never the error of the range validation. -/
lemma Decode_error (conv : Conversions) (r : Option (Node Document)) (conf : FabricmonConf)
    (e : Error) (h : Decode conv r conf = .error e) :
    e = Error.EOF ∨ e = Error.TypeError ∨ ∃ text, e = Error.notValidLevel text := by
  unfold Decode at h
  rcases r with _ | _ | doc
  · simp only [Except.error.injEq] at h
    exact Or.inl h.symm
  · simp at h
  · simp only at h
    cases hl : decodeLogging doc.Logging conf.Logging with
    | error err =>
      rw [hl] at h
      simp only [Except.error.injEq] at h
      obtain ⟨n, text, -, -, he, -⟩ := decodeLogging_error _ _ err hl
      exact Or.inr (Or.inr ⟨text, by rw [← h, he]⟩)
    | ok logging =>
      rw [hl] at h
      simp only at h
      right
      left
      cases hp : decodeDuration conv doc.poll_interval conf.PollInterval with
      | error err =>
        rw [hp] at h
        simp only [Except.error.injEq] at h
        rw [← h]
        exact decodeDuration_error conv _ _ err hp
      | ok pollInterval =>
        rw [hp] at h
        simp only at h
        cases ht : decodeUint conv doc.counter_reset_threshold conf.ResetThreshold with
        | error err =>
          rw [ht] at h
          simp only [Except.error.injEq] at h
          rw [← h]
          exact decodeUint_error conv _ _ err ht
        | ok threshold =>
          rw [ht] at h
          simp only at h
          cases hm : decodeUint conv doc.m_key conf.Mkey with
          | error err =>
            rw [hm] at h
            simp only [Except.error.injEq] at h
            rw [← h]
            exact decodeUint_error conv _ _ err hm
          | ok mkey =>
            rw [hm] at h
            simp only at h
            cases hi : decodeSlice conv doc.InfluxDB conf.InfluxDB with
            | error err =>
              rw [hi] at h
              simp only [Except.error.injEq] at h
              rw [← h]
              exact decodeSlice_error conv _ _ err hi
            | ok influxDB =>
              rw [hi] at h
              simp at h

lemma Decode_error_ne_rangeError (conv : Conversions) (r : Option (Node Document))
    (conf : FabricmonConf) (e : Error) (h : Decode conv r conf = .error e) :
    e ≠ rangeError := by
  rcases Decode_error conv r conf e h with he | he | ⟨text, he⟩ <;>
    · rw [he]
      simp [rangeError]

/-! ### What a successful decoding says of the decoded structure -/

lemma decodeValue_overlays {α : Type} (key : Option (Node α)) (out zero : α) :
    Overlays key out zero (fun v field => field = v) (decodeValue key out zero) := by
  rcases key with _ | _ | v <;> simp [Overlays, decodeValue]

lemma decodeUint_inv (conv : Conversions) (key : Option (Node Int)) (out n : Nat)
    (h : decodeUint conv key out = .ok n) :
    Overlays key out 0
      (fun v field => -9223372036854775808 ≤ v → v < 2 ^ UintSize →
        0 ≤ v ∧ (field : Int) = v) n := by
  unfold decodeUint at h
  rcases key with _ | _ | v
  · simp only [Except.ok.injEq] at h
    exact h.symm
  · simp only [Except.ok.injEq] at h
    exact h.symm
  · simp only at h
    show -9223372036854775808 ≤ v → v < 2 ^ UintSize → 0 ≤ v ∧ (n : Int) = v
    intro hlo hhi
    split_ifs at h with h1 h2
    · simp only [Except.ok.injEq] at h
      rw [← h]
      exact ⟨h1.1, Int.toNat_of_nonneg h1.1⟩
    · exfalso
      apply h2
      constructor
      · exact hlo
      · by_contra hc
        exact h1 ⟨by omega, hhi⟩

lemma decodeDuration_inv (conv : Conversions) (key : Option (Node String)) (out d : Duration)
    (h : decodeDuration conv key out = .ok d) :
    Overlays key out 0 (fun text field => conv.duration text = some field) d := by
  unfold decodeDuration at h
  rcases key with _ | _ | text
  · simp only [Except.ok.injEq] at h
    exact h.symm
  · simp only [Except.ok.injEq] at h
    exact h.symm
  · simp only at h
    show conv.duration text = some d
    cases hd : conv.duration text with
    | none =>
      rw [hd] at h
      simp at h
    | some d2 =>
      rw [hd] at h
      simp only at h
      split_ifs at h
      simp only [Except.ok.injEq] at h
      rw [h]

lemma decodeLogging_inv (doc : Document) (out logging : LoggingConf)
    (h : decodeLogging doc.Logging out = .ok logging) :
    Overlays doc.logLevelKey out.LogLevel (LogLevel.mk 0)
      (fun text field => logrus.ParseLevel text = .ok field.level) logging.LogLevel := by
  unfold decodeLogging at h
  unfold Document.logLevelKey sectionKey
  rcases hL : doc.Logging with _ | _ | n
  · rw [hL] at h
    simp only [Except.ok.injEq] at h
    rw [← h]
    rfl
  · rw [hL] at h
    simp only [Except.ok.injEq] at h
    rw [← h]
    rfl
  · rw [hL] at h
    simp only at h ⊢
    rcases hk : n.log_level with _ | _ | text
    · rw [hk] at h
      simp only [Except.ok.injEq] at h
      rw [← h]
      rfl
    · rw [hk] at h
      simp only [Except.ok.injEq] at h
      rw [← h]
      rfl
    · rw [hk] at h
      simp only [LogLevel.UnmarshalText] at h
      show logrus.ParseLevel text = .ok logging.LogLevel.level
      cases hp : logrus.ParseLevel text with
      | error err =>
        rw [hp] at h
        simp at h
      | ok level =>
        rw [hp] at h
        simp only [Except.ok.injEq] at h
        rw [← h]

lemma decodeTopology_enabled (doc : Document) (out : TopologyConf) :
    Overlays doc.enabledKey out.Enabled false (fun b field => field = b)
      (decodeTopology doc.Topology out).Enabled := by
  unfold Document.enabledKey sectionKey decodeTopology
  rcases doc.Topology with _ | _ | n
  · rfl
  · rfl
  · exact decodeValue_overlays n.Enabled out.Enabled false

lemma decodeTopology_outputDir (doc : Document) (out : TopologyConf) :
    Overlays doc.outputDirKey out.OutputDir "" (fun dir field => field = dir)
      (decodeTopology doc.Topology out).OutputDir := by
  unfold Document.outputDirKey sectionKey decodeTopology
  rcases doc.Topology with _ | _ | n
  · rfl
  · rfl
  · exact decodeValue_overlays n.output_dir out.OutputDir ""

lemma decodeInfluxDB_inv (conv : Conversions) (entry : Node InfluxDBNode) (c : InfluxDBConf)
    (h : decodeInfluxDB conv entry = .ok c) : EntryDecoded conv entry c := by
  unfold decodeInfluxDB at h
  rcases entry with _ | n
  · simp only [Except.ok.injEq] at h
    exact h.symm
  · simp only at h
    cases hd : decodeDuration conv n.Timeout 0 with
    | error err =>
      rw [hd] at h
      simp at h
    | ok timeout =>
      rw [hd] at h
      simp only [Except.ok.injEq] at h
      rw [← h]
      exact ⟨decodeValue_overlays _ _ _, decodeValue_overlays _ _ _,
        decodeValue_overlays _ _ _, decodeValue_overlays _ _ _,
        decodeValue_overlays _ _ _, decodeDuration_inv conv _ _ _ hd⟩

lemma decodeSequence_inv (conv : Conversions) (entries : List (Node InfluxDBNode))
    (cs : List InfluxDBConf) (h : decodeSequence conv entries = .ok cs) :
    List.Forall₂ (EntryDecoded conv) entries cs := by
  induction entries generalizing cs with
  | nil =>
    simp only [decodeSequence, Except.ok.injEq] at h
    rw [← h]
    exact List.Forall₂.nil
  | cons entry rest ih =>
    simp only [decodeSequence] at h
    cases hc : decodeInfluxDB conv entry with
    | error err =>
      rw [hc] at h
      simp at h
    | ok c =>
      rw [hc] at h
      simp only at h
      cases hr : decodeSequence conv rest with
      | error err =>
        rw [hr] at h
        simp at h
      | ok cs2 =>
        rw [hr] at h
        simp only [Except.ok.injEq] at h
        rw [← h]
        exact List.Forall₂.cons (decodeInfluxDB_inv conv entry c hc) (ih cs2 hr)

lemma decodeSlice_inv (conv : Conversions) (key : Option (Node (List (Node InfluxDBNode))))
    (out cs : List InfluxDBConf) (h : decodeSlice conv key out = .ok cs) :
    Overlays key out []
      (fun entries field => List.Forall₂ (EntryDecoded conv) entries field) cs := by
  unfold decodeSlice at h
  rcases key with _ | _ | entries
  · simp only [Except.ok.injEq] at h
    exact h.symm
  · simp only [Except.ok.injEq] at h
    exact h.symm
  · exact decodeSequence_inv conv entries cs h

/-- A successful decoding is that of a null document, which zeroes the
structure, or of a mapping, whose keys have been decoded one by one. -/
lemma Decode_inv (conv : Conversions) (r : Option (Node Document))
    (conf out : FabricmonConf) (h : Decode conv r conf = .ok out) :
    (r = some .null ∧ out = {}) ∨
    ∃ doc, r = some (.val doc) ∧
      decodeLogging doc.Logging conf.Logging = .ok out.Logging ∧
      decodeDuration conv doc.poll_interval conf.PollInterval = .ok out.PollInterval ∧
      decodeUint conv doc.counter_reset_threshold conf.ResetThreshold =
        .ok out.ResetThreshold ∧
      decodeUint conv doc.m_key conf.Mkey = .ok out.Mkey ∧
      decodeSlice conv doc.InfluxDB conf.InfluxDB = .ok out.InfluxDB ∧
      out.Topology = decodeTopology doc.Topology conf.Topology := by
  unfold Decode at h
  rcases r with _ | _ | doc
  · simp at h
  · simp only [Except.ok.injEq] at h
    exact Or.inl ⟨rfl, h.symm⟩
  · right
    refine ⟨doc, rfl, ?_⟩
    simp only at h
    cases hl : decodeLogging doc.Logging conf.Logging with
    | error err => rw [hl] at h; simp at h
    | ok logging =>
      rw [hl] at h
      simp only at h
      cases hp : decodeDuration conv doc.poll_interval conf.PollInterval with
      | error err => rw [hp] at h; simp at h
      | ok pollInterval =>
        rw [hp] at h
        simp only at h
        cases ht : decodeUint conv doc.counter_reset_threshold conf.ResetThreshold with
        | error err => rw [ht] at h; simp at h
        | ok threshold =>
          rw [ht] at h
          simp only at h
          cases hm : decodeUint conv doc.m_key conf.Mkey with
          | error err => rw [hm] at h; simp at h
          | ok mkey =>
            rw [hm] at h
            simp only at h
            cases hi : decodeSlice conv doc.InfluxDB conf.InfluxDB with
            | error err => rw [hi] at h; simp at h
            | ok influxDB =>
              rw [hi] at h
              simp only [Except.ok.injEq] at h
              subst h
              exact ⟨rfl, rfl, rfl, rfl, rfl, rfl⟩

/-- The threshold of a decoded mapping that writes the integer `t`, when the
parser reads `t` as an integer. -/
lemma Decode_threshold (conv : Conversions) (doc : Document) (conf out : FabricmonConf)
    (t : Int) (hdoc : doc.counter_reset_threshold = some (.val t))
    (hlo : -9223372036854775808 ≤ t) (hhi : t < 2 ^ UintSize)
    (h : Decode conv (some (.val doc)) conf = .ok out) :
    0 ≤ t ∧ (out.ResetThreshold : Int) = t ∧
      out.Topology = decodeTopology doc.Topology conf.Topology := by
  rcases Decode_inv conv _ conf out h with ⟨hr, -⟩ | ⟨doc2, hr, -, -, ht, -, -, htop⟩
  · simp at hr
  · simp only [Option.some.injEq, Node.val.injEq] at hr
    subst hr
    have := decodeUint_inv conv _ _ _ ht
    rw [hdoc] at this
    obtain ⟨h0, hv⟩ := this hlo hhi
    exact ⟨h0, hv, htop⟩

/-- The document that sets only the threshold, to a value the field holds. -/
lemma Decode_threshold_only (conv : Conversions) (conf : FabricmonConf) (t : Int)
    (h0 : 0 ≤ t) (h1 : t < 2 ^ UintSize) :
    Decode conv (some (.val { counter_reset_threshold := some (.val t) })) conf =
      .ok { conf with ResetThreshold := t.toNat } := by
  simp [Decode, decodeLogging, decodeDuration, decodeUint, decodeSlice, decodeTopology,
    h0, h1]

end yaml

namespace config

/-! ## Lemmas on `ReadConfig` -/

lemma validate_of_in_range (conf : FabricmonConf)
    (h : 25 ≤ conf.ResetThreshold ∧ conf.ResetThreshold ≤ 100) : conf.validate = none := by
  have : ¬ (conf.ResetThreshold < 25 ∨ conf.ResetThreshold > 100) := by omega
  simp [FabricmonConf.validate, this]

lemma validate_of_out_of_range (conf : FabricmonConf)
    (h : conf.ResetThreshold < 25 ∨ conf.ResetThreshold > 100) :
    conf.validate = some rangeError := by
  simp [FabricmonConf.validate, h, rangeError]

lemma ReadConfig_of_decode_error (Decode : FabricmonConf → Except Error FabricmonConf)
    (Access : String → Option Errno) (e : Error) (h : Decode defaults = .error e) :
    ReadConfig Decode Access = ⟨none, some e, []⟩ := by
  simp [ReadConfig, h]

lemma ReadConfig_of_validate_error (Decode : FabricmonConf → Except Error FabricmonConf)
    (Access : String → Option Errno) (conf : FabricmonConf) (e : Error)
    (h : Decode defaults = .ok conf) (hv : conf.validate = some e) :
    ReadConfig Decode Access = ⟨none, some e, []⟩ := by
  simp [ReadConfig, h, hv]

lemma ReadConfig_of_topology_error (Decode : FabricmonConf → Except Error FabricmonConf)
    (Access : String → Option Errno) (conf : FabricmonConf) (e : Error)
    (h : Decode defaults = .ok conf) (hv : conf.validate = none)
    (ht : (conf.Topology.validate Access).1 = some e) :
    ReadConfig Decode Access = ⟨none, some e, (conf.Topology.validate Access).2⟩ := by
  simp only [ReadConfig, h, hv]
  cases hT : conf.Topology.validate Access with
  | mk err probes =>
    rw [hT] at ht
    simp only at ht
    subst ht
    rfl

lemma ReadConfig_of_valid (Decode : FabricmonConf → Except Error FabricmonConf)
    (Access : String → Option Errno) (conf : FabricmonConf)
    (h : Decode defaults = .ok conf) (hv : conf.validate = none)
    (ht : (conf.Topology.validate Access).1 = none) :
    ReadConfig Decode Access = ⟨some conf, none, (conf.Topology.validate Access).2⟩ := by
  simp only [ReadConfig, h, hv]
  cases hT : conf.Topology.validate Access with
  | mk err probes =>
    rw [hT] at ht
    simp only at ht
    subst ht
    rfl

/-- An accepted input was decoded into the returned structure, which passed
both validations. -/
lemma ReadConfig_accept_inv (Decode : FabricmonConf → Except Error FabricmonConf)
    (Access : String → Option Errno) (conf : FabricmonConf)
    (h : (ReadConfig Decode Access).conf = some conf) :
    Decode defaults = .ok conf ∧ conf.validate = none ∧
      (conf.Topology.validate Access).1 = none := by
  cases hd : Decode defaults with
  | error e => rw [ReadConfig_of_decode_error Decode Access e hd] at h; simp at h
  | ok c =>
    cases hv : c.validate with
    | some e => rw [ReadConfig_of_validate_error Decode Access c e hd hv] at h; simp at h
    | none =>
      cases ht : (c.Topology.validate Access).1 with
      | some e => rw [ReadConfig_of_topology_error Decode Access c e hd hv ht] at h; simp at h
      | none =>
        rw [ReadConfig_of_valid Decode Access c hd hv ht] at h
        simp only [Option.some.injEq] at h
        subst h
        exact ⟨rfl, hv, ht⟩

lemma topology_validate_of_disabled (conf : TopologyConf) (Access : String → Option Errno)
    (h : conf.Enabled = false) : conf.validate Access = (none, []) := by
  simp [TopologyConf.validate, h]

lemma topology_validate_of_enabled (conf : TopologyConf) (Access : String → Option Errno)
    (h : conf.Enabled = true) :
    conf.validate Access =
      ((Access conf.OutputDir).map
          (fun err => Error.Errorf ("topology output directory: " ++ err.Error)),
        [conf.OutputDir]) := by
  simp only [TopologyConf.validate, h, if_true]
  cases Access conf.OutputDir <;> rfl

end config

/-! ## The claims -/

namespace config

open yaml

/-- C1: for every integer `t` with `25 ≤ t ≤ 100`, `ReadConfig` on a document
that sets `counter_reset_threshold` to `t` and has no `Topology` section
succeeds: it returns a configuration and a nil error, probes nothing, and the
configuration has `ResetThreshold == t`. This holds for the document that sets
nothing else (second part) and for every such document that the decoder
accepts (first part). `FabricmonConf.validate` returns nil for every
`ResetThreshold` in `[25, 100]` (third part), and whatever the decoder is, a
decoded structure with such a threshold and the topology output disabled is
returned as it is (fourth part). -/
theorem threshold_in_range_accepted (conv : Conversions) (t : Int)
    (ht : 25 ≤ t ∧ t ≤ 100) (Access : String → Option Errno) :
    (∀ doc : Document, doc.counter_reset_threshold = some (.val t) → doc.Topology = none →
        (∃ decoded, Decode conv (some (.val doc)) defaults = .ok decoded) →
        ∃ conf, ReadConfig (Decode conv (some (.val doc))) Access = ⟨some conf, none, []⟩ ∧
          (conf.ResetThreshold : Int) = t) ∧
    ReadConfig (Decode conv (some (.val { counter_reset_threshold := some (.val t) })))
        Access = ⟨some { defaults with ResetThreshold := t.toNat }, none, []⟩ ∧
    (∀ conf : FabricmonConf, (conf.ResetThreshold : Int) = t → conf.validate = none) ∧
    (∀ (Decoder : FabricmonConf → Except Error FabricmonConf) (conf : FabricmonConf),
      Decoder defaults = .ok conf → (conf.ResetThreshold : Int) = t →
      conf.Topology.Enabled = false →
      ReadConfig Decoder Access = ⟨some conf, none, []⟩) := by
  have h0 : 0 ≤ t := by omega
  have h1 : t < 2 ^ UintSize := by
    have : (2 : Int) ^ UintSize = 18446744073709551616 := by decide
    omega
  have hlo : -9223372036854775808 ≤ t := by omega
  have hnat : (t.toNat : Int) = t := Int.toNat_of_nonneg h0
  have accept : ∀ (Decoder : FabricmonConf → Except Error FabricmonConf)
      (conf : FabricmonConf), Decoder defaults = .ok conf →
      (conf.ResetThreshold : Int) = t → conf.Topology.Enabled = false →
      ReadConfig Decoder Access = ⟨some conf, none, []⟩ := by
    intro Decoder conf hd hconf hE
    have hr := ReadConfig_of_valid Decoder Access conf hd
      (validate_of_in_range conf (by omega))
      (by rw [topology_validate_of_disabled conf.Topology Access hE])
    rw [hr, topology_validate_of_disabled conf.Topology Access hE]
  refine ⟨?_, ?_, ?_, accept⟩
  · intro doc hdoc htop hdec
    obtain ⟨decoded, hd⟩ := hdec
    obtain ⟨-, hv, hT⟩ := Decode_threshold conv doc defaults decoded t hdoc hlo h1 hd
    refine ⟨decoded, accept _ decoded hd hv ?_, hv⟩
    rw [hT, htop]
    rfl
  · exact accept _ _ (Decode_threshold_only conv defaults t h0 h1) hnat rfl
  · intro conf hconf
    exact validate_of_in_range conf (by omega)

/-- Witness of C1 at both bounds: the document that sets only the threshold
(to 100), and a document with a level and a poll interval (threshold 25). -/
theorem threshold_in_range_accepted_witness :
    ReadConfig (Decode sampleConversions (some (.val
        { counter_reset_threshold := some (.val 100) }))) (fun _ => none) =
      ⟨some { defaults with ResetThreshold := 100 }, none, []⟩ ∧
    (∃ conf, ReadConfig (Decode sampleConversions (some (.val
          { counter_reset_threshold := some (.val 25), poll_interval := some (.val "5s"),
            Logging := some (.val { log_level := some (.val "debug") }) })))
          (fun _ => none) = ⟨some conf, none, []⟩ ∧ (conf.ResetThreshold : Int) = 25) ∧
    ({ ResetThreshold := 25 } : FabricmonConf).validate = none :=
  ⟨(threshold_in_range_accepted sampleConversions 100 (by decide) (fun _ => none)).2.1,
   (threshold_in_range_accepted sampleConversions 25 (by decide) (fun _ => none)).1
      { counter_reset_threshold := some (.val 25), poll_interval := some (.val "5s"),
        Logging := some (.val { log_level := some (.val "debug") }) } rfl rfl
      ⟨{ PollInterval := 5 * Second, ResetThreshold := 25,
         Logging := { LogLevel := LogLevel.mk logrus.DebugLevel } }, by decide⟩,
   (threshold_in_range_accepted sampleConversions 25 (by decide) (fun _ => none)).2.2.1
      { ResetThreshold := 25 } rfl⟩

/-- C2, as stated, fails: with the threshold `-1` the decoder cannot store the
value in the unsigned field and `ReadConfig` returns the decoder's type error,
not the range error; and with the threshold `5` next to the level text
`bogus`, it returns the error of `UnmarshalText`. -/
theorem negative_threshold_is_decode_error :
    ReadConfig (Decode sampleConversions (some (.val
        { counter_reset_threshold := some (.val (-1)) }))) (fun _ => none) =
      ⟨none, some Error.TypeError, []⟩ ∧
    Error.TypeError ≠ rangeError ∧
    ReadConfig (Decode sampleConversions (some (.val
        { counter_reset_threshold := some (.val 5),
          Logging := some (.val { log_level := some (.val "bogus") }) }))) (fun _ => none) =
      ⟨none, some (Error.notValidLevel "bogus"), []⟩ ∧
    Error.notValidLevel "bogus" ≠ rangeError := by
  decide

/-- C2, amended: for every integer `t` with `t < 25` or `t > 100` that the
decoder reads as an integer (`-2^63 ≤ t < 2^64`), `ReadConfig` on a document
that sets `counter_reset_threshold` to `t` fails, whatever the other fields
are: no configuration, a non-nil error, no probe. The error is the range error
of `FabricmonConf.validate` when the document decodes, which needs `0 ≤ t`;
when `t` is negative the decoder fails, and whenever the decoder fails
`ReadConfig` returns the error of the decoder, which is not the range
error. -/
theorem threshold_out_of_range_rejected (conv : Conversions) (t : Int)
    (ht : t < 25 ∨ t > 100) (hlo : -9223372036854775808 ≤ t) (hhi : t < 2 ^ UintSize)
    (doc : Document) (Access : String → Option Errno)
    (hdoc : doc.counter_reset_threshold = some (.val t)) :
    (ReadConfig (Decode conv (some (.val doc))) Access).conf = none ∧
    (ReadConfig (Decode conv (some (.val doc))) Access).err ≠ none ∧
    (ReadConfig (Decode conv (some (.val doc))) Access).probes = [] ∧
    ((∃ decoded, Decode conv (some (.val doc)) defaults = .ok decoded) →
      0 ≤ t ∧ ReadConfig (Decode conv (some (.val doc))) Access =
        ⟨none, some rangeError, []⟩) ∧
    (t < 0 → ∃ e, Decode conv (some (.val doc)) defaults = .error e) ∧
    (∀ e, Decode conv (some (.val doc)) defaults = .error e →
      e ≠ rangeError ∧
      ReadConfig (Decode conv (some (.val doc))) Access = ⟨none, some e, []⟩) := by
  cases hd : Decode conv (some (.val doc)) defaults with
  | error e =>
    have hr := ReadConfig_of_decode_error _ Access e hd
    rw [hr]
    refine ⟨rfl, by simp, rfl, ?_, fun _ => ⟨e, rfl⟩, ?_⟩
    · rintro ⟨decoded, hdec⟩
      simp at hdec
    · intro e2 he2
      simp only [Except.error.injEq] at he2
      subst he2
      exact ⟨Decode_error_ne_rangeError conv _ _ e hd, rfl⟩
  | ok decoded =>
    obtain ⟨h0, hv, -⟩ := Decode_threshold conv doc defaults decoded t hdoc hlo hhi hd
    have hr := ReadConfig_of_validate_error _ Access decoded rangeError hd
      (validate_of_out_of_range decoded (by omega))
    rw [hr]
    refine ⟨rfl, by simp, rfl, fun _ => ⟨h0, rfl⟩, fun hneg => by omega, ?_⟩
    intro e he
    simp at he

/-- Witness of C2 (amended): thresholds 24, 101 and -7, the first in a document
that enables the topology output over a directory that cannot be written. -/
theorem threshold_out_of_range_rejected_witness :
    ReadConfig (Decode sampleConversions (some (.val
        { counter_reset_threshold := some (.val 24),
          Topology := some (.val
            { Enabled := some (.val true), output_dir := some (.val "/ro") }) })))
        (fun _ => some ⟨"read-only file system"⟩) = ⟨none, some rangeError, []⟩ ∧
    ReadConfig (Decode sampleConversions (some (.val
        { counter_reset_threshold := some (.val 101), m_key := some (.val 3) })))
        (fun _ => none) = ⟨none, some rangeError, []⟩ ∧
    (Error.TypeError ≠ rangeError ∧
      ReadConfig (Decode sampleConversions (some (.val
        { counter_reset_threshold := some (.val (-7)) })))
        (fun _ => none) = ⟨none, some Error.TypeError, []⟩) :=
  ⟨((threshold_out_of_range_rejected sampleConversions 24 (by decide) (by decide)
      (by decide)
      { counter_reset_threshold := some (.val 24),
        Topology := some (.val
          { Enabled := some (.val true), output_dir := some (.val "/ro") }) }
      (fun _ => some ⟨"read-only file system"⟩) rfl).2.2.2.1
      ⟨{ defaults with
          ResetThreshold := 24,
          Topology := { Enabled := true, OutputDir := "/ro" } }, by decide⟩).2,
   ((threshold_out_of_range_rejected sampleConversions 101 (by decide) (by decide)
      (by decide)
      { counter_reset_threshold := some (.val 101), m_key := some (.val 3) }
      (fun _ => none) rfl).2.2.2.1
      ⟨{ defaults with ResetThreshold := 101, Mkey := 3 }, by decide⟩).2,
   (threshold_out_of_range_rejected sampleConversions (-7) (by decide) (by decide)
      (by decide)
      { counter_reset_threshold := some (.val (-7)) }
      (fun _ => none) rfl).2.2.2.2.2 Error.TypeError (by decide)⟩

/-- C3, as stated, fails: on the empty document `ReadConfig` returns no
configuration but the range error, `ResetThreshold` having kept its zero
value; on a stream that holds no document at all it returns `io.EOF`. -/
theorem empty_document_rejected :
    ReadConfig (Decode sampleConversions (some (.val {}))) (fun _ => none) =
      ⟨none, some rangeError, []⟩ ∧
    ReadConfig (Decode sampleConversions none) (fun _ => none) =
      ⟨none, some Error.EOF, []⟩ := by
  decide

/-- C3, amended: `ReadConfig` on a document that is empty but for a
`counter_reset_threshold` `t` in `[25, 100]` succeeds and returns a
configuration with `PollInterval == 10` seconds, `Logging.LogLevel == info`,
`InfluxDB` empty and `Topology.Enabled == false`; the empty document itself is
rejected with the range error, whatever the file system is. -/
theorem defaults_of_threshold_only_document (conv : Conversions) (t : Int)
    (ht : 25 ≤ t ∧ t ≤ 100) (Access : String → Option Errno) :
    (∃ conf, ReadConfig (Decode conv (some (.val
          { counter_reset_threshold := some (.val t) }))) Access =
        ⟨some conf, none, []⟩ ∧
      conf.PollInterval = 10 * Second ∧
      conf.Logging.LogLevel = LogLevel.mk logrus.InfoLevel ∧
      conf.InfluxDB = [] ∧
      conf.Topology.Enabled = false ∧
      (conf.ResetThreshold : Int) = t) ∧
    ReadConfig (Decode conv (some (.val {}))) Access = ⟨none, some rangeError, []⟩ := by
  have h0 : 0 ≤ t := by omega
  have h1 : t < 2 ^ UintSize := by
    have : (2 : Int) ^ UintSize = 18446744073709551616 := by decide
    omega
  constructor
  · have hd := Decode_threshold_only conv defaults t h0 h1
    have hv := validate_of_in_range { defaults with ResetThreshold := t.toNat }
      (by simp only; omega)
    refine ⟨_, ReadConfig_of_valid _ Access _ hd hv rfl, ?_, rfl, rfl, rfl, ?_⟩
    · show defaults.PollInterval = 10 * Second
      decide
    · exact Int.toNat_of_nonneg h0
  · exact ReadConfig_of_validate_error _ Access defaults rangeError rfl (by decide)

/-- Witness of C3 (amended) at the threshold 50. -/
theorem defaults_of_threshold_only_document_witness :
    ∃ conf, ReadConfig (Decode sampleConversions (some (.val
          { counter_reset_threshold := some (.val 50) })))
        (fun _ => none) = ⟨some conf, none, []⟩ ∧
      conf.PollInterval = 10 * Second ∧
      conf.Logging.LogLevel = LogLevel.mk logrus.InfoLevel ∧
      conf.InfluxDB = [] ∧
      conf.Topology.Enabled = false ∧
      (conf.ResetThreshold : Int) = 50 :=
  (defaults_of_threshold_only_document sampleConversions 50 (by decide) (fun _ => none)).1

/-- C4, as stated, fails: the document sets the threshold to 50 and has a
`Logging` section that is present but empty, so `log_level` is absent; it is
accepted, and the returned configuration has the level `panic` (the zero
value), not the pre-populated `info`. -/
theorem empty_logging_section_resets_level :
    ReadConfig (Decode sampleConversions (some (.val
        { counter_reset_threshold := some (.val 50), Logging := some .null })))
        (fun _ => none) =
      ⟨some { PollInterval := 10 * Second, ResetThreshold := 50,
              Logging := { LogLevel := LogLevel.mk logrus.PanicLevel } }, none, []⟩ ∧
    ({ counter_reset_threshold := some (.val 50), Logging := some .null } :
      Document).levelText = none ∧
    LogLevel.mk logrus.PanicLevel ≠ LogLevel.mk logrus.InfoLevel := by
  decide

/-- C4, amended: defaults are applied before decoding and survive it where the
document is silent. For every input that `ReadConfig` accepts, the stream
holds a mapping, and each field of the returned configuration follows the
decode rule `Overlays` for its key: a field whose key is absent (in a section
that is absent or a mapping) has its pre-populated value (`PollInterval` 10
seconds, `Logging.LogLevel` info, `InfluxDB` empty, `Topology.Enabled` false,
`Topology.OutputDir` empty, `Mkey` 0); a field whose key or section is present
but empty has the zero value (`Logging.LogLevel` panic); a field whose key has
a value has that value (for a duration, the one its text denotes; for
`log_level`, the level its text names; for `InfluxDB`, one fresh entry for
each entry of the sequence, decoded key by key; for `m_key` and
`counter_reset_threshold`, the integer, when the parser reads it as one). The
threshold always has a value in an accepted document. -/
theorem defaults_survive_decoding (conv : Conversions) (r : Option (Node Document))
    (Access : String → Option Errno) (conf : FabricmonConf)
    (h : (ReadConfig (Decode conv r) Access).conf = some conf) :
    ∃ doc, r = some (.val doc) ∧
      Overlays doc.poll_interval (10 * Second) 0
        (fun text field => conv.duration text = some field) conf.PollInterval ∧
      Overlays doc.logLevelKey (LogLevel.mk logrus.InfoLevel) (LogLevel.mk logrus.PanicLevel)
        (fun text field => logrus.ParseLevel text = .ok field.level)
        conf.Logging.LogLevel ∧
      Overlays doc.InfluxDB [] []
        (fun entries field => List.Forall₂ (EntryDecoded conv) entries field)
        conf.InfluxDB ∧
      Overlays doc.enabledKey false false (fun b field => field = b)
        conf.Topology.Enabled ∧
      Overlays doc.outputDirKey "" "" (fun dir field => field = dir)
        conf.Topology.OutputDir ∧
      Overlays doc.m_key (0 : Nat) 0
        (fun k (field : Nat) =>
          -9223372036854775808 ≤ k → k < 2 ^ UintSize → (field : Int) = k)
        conf.Mkey ∧
      ∃ t, doc.counter_reset_threshold = some (.val t) ∧
        (-9223372036854775808 ≤ t → t < 2 ^ UintSize → (conf.ResetThreshold : Int) = t) := by
  obtain ⟨hd, hv, -⟩ := ReadConfig_accept_inv _ Access conf h
  rcases Decode_inv conv r defaults conf hd with
    ⟨-, hzero⟩ | ⟨doc, hr, hl, hp, ht, hm, hi, hT⟩
  · rw [hzero] at hv
    exact absurd hv (by decide)
  · refine ⟨doc, hr, ?_, decodeLogging_inv doc defaults.Logging conf.Logging hl,
      decodeSlice_inv conv _ _ _ hi, ?_, ?_, ?_, ?_⟩
    · have := decodeDuration_inv conv _ _ _ hp
      have hdef : defaults.PollInterval = 10 * Second := by decide
      rw [hdef] at this
      exact this
    · rw [hT]
      exact decodeTopology_enabled doc defaults.Topology
    · rw [hT]
      exact decodeTopology_outputDir doc defaults.Topology
    · have := decodeUint_inv conv _ _ _ hm
      rcases hk : doc.m_key with _ | _ | k
      · rw [hk] at this
        exact this
      · rw [hk] at this
        exact this
      · rw [hk] at this
        exact fun hlo hhi => (this hlo hhi).2
    · have := decodeUint_inv conv _ _ _ ht
      rcases hk : doc.counter_reset_threshold with _ | _ | t
      · rw [hk] at this
        have h0 : conf.ResetThreshold = 0 := this
        have : conf.validate ≠ none := by
          rw [validate_of_out_of_range conf (by omega)]
          simp
        exact absurd hv this
      · rw [hk] at this
        have h0 : conf.ResetThreshold = 0 := this
        have : conf.validate ≠ none := by
          rw [validate_of_out_of_range conf (by omega)]
          simp
        exact absurd hv this
      · rw [hk] at this
        exact ⟨t, rfl, fun hlo hhi => (this hlo hhi).2⟩

/-- Witness of C4 (amended): a document with a threshold, a level, an empty
`Topology` section and one `InfluxDB` entry is accepted; the poll interval
keeps its default, the level is the one the text names, the topology switch
has its zero value and the entry is decoded key by key. -/
theorem defaults_survive_decoding_witness :
    (ReadConfig (Decode sampleConversions (some (.val
        { counter_reset_threshold := some (.val 80),
          InfluxDB := some (.val [.val
            { URL := some (.val "http://db:8086"), Timeout := some (.val "5s") }]),
          Logging := some (.val { log_level := some (.val "WARN") }),
          Topology := some .null }))) (fun _ => none)).conf =
      some { PollInterval := 10 * Second, ResetThreshold := 80,
             InfluxDB := [{ URL := "http://db:8086", Timeout := 5 * Second }],
             Logging := { LogLevel := LogLevel.mk logrus.WarnLevel } } ∧
    logrus.ParseLevel "WARN" = .ok logrus.WarnLevel ∧
    List.Forall₂ (EntryDecoded sampleConversions)
      [.val { URL := some (.val "http://db:8086"), Timeout := some (.val "5s") }]
      [{ URL := "http://db:8086", Timeout := 5 * Second }] := by
  obtain ⟨doc, hr, -, hlevel, hinflux, -⟩ := defaults_survive_decoding sampleConversions
    (some (.val
      { counter_reset_threshold := some (.val 80),
        InfluxDB := some (.val [.val
          { URL := some (.val "http://db:8086"), Timeout := some (.val "5s") }]),
        Logging := some (.val { log_level := some (.val "WARN") }),
        Topology := some .null }))
    (fun _ => none)
    { PollInterval := 10 * Second, ResetThreshold := 80,
      InfluxDB := [{ URL := "http://db:8086", Timeout := 5 * Second }],
      Logging := { LogLevel := LogLevel.mk logrus.WarnLevel } }
    (by decide)
  simp only [Option.some.injEq, Node.val.injEq] at hr
  subst hr
  exact ⟨by decide, hlevel, hinflux⟩

/-- C5: `TopologyConf.validate` returns an error if and only if `Enabled` is
true and the write-access probe on `OutputDir` fails. With `Enabled` false it
returns nil and probes nothing, whatever `OutputDir` is; with `Enabled` true it
probes `OutputDir` exactly once, and on a failing probe the text of the error
ends with the text of the underlying error. Consequently an input with a valid
`counter_reset_threshold` that is decoded with `Topology.Enabled` true over a
directory that cannot be written is rejected by `ReadConfig` with that error,
and the same input with `Enabled` false is accepted, without a probe. -/
theorem topology_validate_probe (conf : TopologyConf) (Access : String → Option Errno) :
    ((conf.validate Access).1 ≠ none ↔
      (conf.Enabled = true ∧ Access conf.OutputDir ≠ none)) ∧
    (conf.Enabled = false → conf.validate Access = (none, [])) ∧
    (conf.Enabled = true → (conf.validate Access).2 = [conf.OutputDir]) ∧
    (∀ e, conf.Enabled = true → Access conf.OutputDir = some e →
      (conf.validate Access).1 =
        some (Error.Errorf ("topology output directory: " ++ e.Error)) ∧
      strings.Contains ("topology output directory: " ++ e.Error) e.Error) ∧
    (∀ (Decode1 Decode2 : FabricmonConf → Except Error FabricmonConf)
      (decoded : FabricmonConf) (e : Errno),
      25 ≤ decoded.ResetThreshold → decoded.ResetThreshold ≤ 100 →
      Access conf.OutputDir = some e →
      Decode1 defaults =
        .ok { decoded with Topology := { Enabled := true, OutputDir := conf.OutputDir } } →
      Decode2 defaults =
        .ok { decoded with Topology := { Enabled := false, OutputDir := conf.OutputDir } } →
      ReadConfig Decode1 Access =
        ⟨none, some (Error.Errorf ("topology output directory: " ++ e.Error)),
          [conf.OutputDir]⟩ ∧
      ReadConfig Decode2 Access =
        ⟨some { decoded with Topology := { Enabled := false, OutputDir := conf.OutputDir } },
          none, []⟩) := by
  refine ⟨?_, ?_, ?_, ?_, ?_⟩
  · cases hE : conf.Enabled with
    | false => simp [topology_validate_of_disabled conf Access hE]
    | true =>
      rw [topology_validate_of_enabled conf Access hE]
      cases Access conf.OutputDir <;> simp
  · exact topology_validate_of_disabled conf Access
  · intro hE
    rw [topology_validate_of_enabled conf Access hE]
  · intro e hE hA
    rw [topology_validate_of_enabled conf Access hE, hA]
    refine ⟨rfl, ?_⟩
    show e.Error.data <:+: ("topology output directory: " ++ e.Error).data
    rw [String.data_append]
    exact (List.suffix_append _ _).isInfix
  · intro Decode1 Decode2 decoded e ht0 ht1 hA hd1 hd2
    constructor
    · have hv := validate_of_in_range
        { decoded with Topology := { Enabled := true, OutputDir := conf.OutputDir } }
        ⟨ht0, ht1⟩
      have ht := topology_validate_of_enabled
        { Enabled := true, OutputDir := conf.OutputDir } Access rfl
      have hdir : ({ Enabled := true, OutputDir := conf.OutputDir } :
          TopologyConf).OutputDir = conf.OutputDir := rfl
      rw [hdir, hA] at ht
      have hr := ReadConfig_of_topology_error Decode1 Access _
        (Error.Errorf ("topology output directory: " ++ e.Error)) hd1 hv (by rw [ht]; rfl)
      rw [hr, ht]
    · have hv := validate_of_in_range
        { decoded with Topology := { Enabled := false, OutputDir := conf.OutputDir } }
        ⟨ht0, ht1⟩
      exact ReadConfig_of_valid Decode2 Access _ hd2 hv rfl

/-- Witness of C5: the directory `/srv/topology` cannot be written; the
document that enables the output over it is rejected after one probe, the one
that disables it is accepted without a probe. -/
theorem topology_validate_probe_witness :
    ReadConfig (Decode sampleConversions (some (.val
        { counter_reset_threshold := some (.val 60),
          Topology := some (.val
            { Enabled := some (.val true), output_dir := some (.val "/srv/topology") }) })))
        (fun _ => some ⟨"permission denied"⟩) =
      ⟨none, some (Error.Errorf "topology output directory: permission denied"),
        ["/srv/topology"]⟩ ∧
    ReadConfig (Decode sampleConversions (some (.val
        { counter_reset_threshold := some (.val 60),
          Topology := some (.val
            { Enabled := some (.val false), output_dir := some (.val "/srv/topology") }) })))
        (fun _ => some ⟨"permission denied"⟩) =
      ⟨some { defaults with
          ResetThreshold := 60,
          Topology := { Enabled := false, OutputDir := "/srv/topology" } }, none, []⟩ ∧
    ({ Enabled := false, OutputDir := "/srv/topology" } : TopologyConf).validate
        (fun _ => some ⟨"permission denied"⟩) = (none, []) ∧
    (({ Enabled := true, OutputDir := "/srv/topology" } : TopologyConf).validate
        (fun _ => some ⟨"permission denied"⟩)).2 = ["/srv/topology"] :=
  have h := (topology_validate_probe { Enabled := true, OutputDir := "/srv/topology" }
    (fun _ => some ⟨"permission denied"⟩)).2.2.2.2
    (Decode sampleConversions (some (.val
      { counter_reset_threshold := some (.val 60),
        Topology := some (.val
          { Enabled := some (.val true), output_dir := some (.val "/srv/topology") }) })))
    (Decode sampleConversions (some (.val
      { counter_reset_threshold := some (.val 60),
        Topology := some (.val
          { Enabled := some (.val false), output_dir := some (.val "/srv/topology") }) })))
    { defaults with ResetThreshold := 60 }
    ⟨"permission denied"⟩ (by decide) (by decide) rfl (by decide) (by decide)
  ⟨h.1, h.2,
   (topology_validate_probe { Enabled := false, OutputDir := "/srv/topology" }
    (fun _ => some ⟨"permission denied"⟩)).2.1 rfl,
   (topology_validate_probe { Enabled := true, OutputDir := "/srv/topology" }
    (fun _ => some ⟨"permission denied"⟩)).2.2.1 rfl⟩

/-- C6: for every document whose `Logging.log_level` text is not a recognized
severity name, `ReadConfig` fails at the decode step, before any validation or
probe, with the error of `UnmarshalText` that carries the offending text; it
returns no configuration (so never one with the default level), whatever the
other fields of the document are. -/
theorem unrecognized_level_fails_decoding (conv : Conversions) (doc : Document)
    (Access : String → Option Errno) (text : String) (htext : doc.levelText = some text)
    (hbad : ¬ logrus.Recognized text) :
    Decode conv (some (.val doc)) defaults = .error (Error.notValidLevel text) ∧
    ReadConfig (Decode conv (some (.val doc))) Access =
      ⟨none, some (Error.notValidLevel text), []⟩ := by
  have hl := decodeLogging_of_unrecognized doc defaults.Logging text htext hbad
  have hd : Decode conv (some (.val doc)) defaults = .error (Error.notValidLevel text) := by
    simp only [Decode, hl]
  exact ⟨hd, ReadConfig_of_decode_error _ Access _ hd⟩

/-- Witness of C6: the level text `bogus` in a document that is valid
otherwise. -/
theorem unrecognized_level_fails_decoding_witness :
    ¬ logrus.Recognized "bogus" ∧
    ReadConfig (Decode sampleConversions (some (.val
        { counter_reset_threshold := some (.val 50),
          Logging := some (.val { log_level := some (.val "bogus") }) })))
        (fun _ => none) =
      ⟨none, some (Error.notValidLevel "bogus"), []⟩ :=
  ⟨by decide,
   (unrecognized_level_fails_decoding sampleConversions
      { counter_reset_threshold := some (.val 50),
        Logging := some (.val { log_level := some (.val "bogus") }) }
      (fun _ => none) "bogus" rfl (by decide)).2⟩

/-- C7: `ReadConfig` runs the decoder, then the range validation, then the
topology validation, stops at the first failure and returns exactly that error
with a nil configuration; the configuration is non-nil if and only if the error
is nil. Nothing is probed unless decoding and range validation have passed. In
particular an input that decodes, with a `counter_reset_threshold` outside
`[25, 100]` and the topology output enabled over a directory that cannot be
written, gets the range error, and nothing is probed. -/
theorem first_error_short_circuits (Decode : FabricmonConf → Except Error FabricmonConf)
    (Access : String → Option Errno) :
    (∀ e, Decode defaults = .error e → ReadConfig Decode Access = ⟨none, some e, []⟩) ∧
    (∀ conf e, Decode defaults = .ok conf → conf.validate = some e →
      ReadConfig Decode Access = ⟨none, some e, []⟩) ∧
    (∀ conf e, Decode defaults = .ok conf → conf.validate = none →
      (conf.Topology.validate Access).1 = some e →
      ReadConfig Decode Access = ⟨none, some e, (conf.Topology.validate Access).2⟩) ∧
    (∀ conf, Decode defaults = .ok conf → conf.validate = none →
      (conf.Topology.validate Access).1 = none →
      ReadConfig Decode Access = ⟨some conf, none, (conf.Topology.validate Access).2⟩) ∧
    ((ReadConfig Decode Access).conf ≠ none ↔ (ReadConfig Decode Access).err = none) ∧
    (∀ conf e, Decode defaults = .ok conf →
      (conf.ResetThreshold < 25 ∨ conf.ResetThreshold > 100) →
      conf.Topology.Enabled = true → Access conf.Topology.OutputDir = some e →
      (conf.Topology.validate Access).1 ≠ none ∧
      ReadConfig Decode Access = ⟨none, some rangeError, []⟩) := by
  refine ⟨ReadConfig_of_decode_error Decode Access,
    fun conf e => ReadConfig_of_validate_error Decode Access conf e,
    fun conf e => ReadConfig_of_topology_error Decode Access conf e,
    fun conf => ReadConfig_of_valid Decode Access conf, ?_, ?_⟩
  · cases hd : Decode defaults with
    | error e => simp [ReadConfig_of_decode_error Decode Access e hd]
    | ok c =>
      cases hv : c.validate with
      | some e => simp [ReadConfig_of_validate_error Decode Access c e hd hv]
      | none =>
        cases ht : (c.Topology.validate Access).1 with
        | some e => simp [ReadConfig_of_topology_error Decode Access c e hd hv ht]
        | none => simp [ReadConfig_of_valid Decode Access c hd hv ht]
  · intro conf e hd hout hE hA
    refine ⟨?_, ReadConfig_of_validate_error Decode Access conf rangeError hd
      (validate_of_out_of_range conf hout)⟩
    rw [topology_validate_of_enabled conf.Topology Access hE, hA]
    simp

/-- Witness of C7: a decoder that fails with `io.EOF`, and the document with
the threshold 7 and the topology output enabled over a read-only directory. -/
theorem first_error_short_circuits_witness :
    ReadConfig (fun _ => .error Error.EOF) (fun _ => some ⟨"read-only file system"⟩) =
      ⟨none, some Error.EOF, []⟩ ∧
    ReadConfig (yaml.Decode sampleConversions (some (.val
        { counter_reset_threshold := some (.val 7),
          Topology := some (.val
            { Enabled := some (.val true), output_dir := some (.val "/mnt/ro") }) })))
        (fun _ => some ⟨"read-only file system"⟩) = ⟨none, some rangeError, []⟩ :=
  ⟨(first_error_short_circuits (fun _ => .error Error.EOF)
      (fun _ => some ⟨"read-only file system"⟩)).1 Error.EOF rfl,
   ((first_error_short_circuits
      (yaml.Decode sampleConversions (some (.val
        { counter_reset_threshold := some (.val 7),
          Topology := some (.val
            { Enabled := some (.val true), output_dir := some (.val "/mnt/ro") }) })))
      (fun _ => some ⟨"read-only file system"⟩)).2.2.2.2.2
      { defaults with
        ResetThreshold := 7,
        Topology := { Enabled := true, OutputDir := "/mnt/ro" } }
      ⟨"read-only file system"⟩ (by decide) (by decide) rfl rfl).2⟩

/-- C8, as stated, fails: the error of `FabricmonConf.validate` does not carry
the offending value. For the thresholds 7 and 200 it is the same error value,
whose text does not contain `7`. -/
theorem range_error_omits_value :
    ({ ResetThreshold := 7 } : FabricmonConf).validate =
      some (Error.Errorf "counter_reset_threshold must be between 25 and 100") ∧
    ¬ strings.Contains "counter_reset_threshold must be between 25 and 100" "7" ∧
    ({ ResetThreshold := 7 } : FabricmonConf).validate =
      ({ ResetThreshold := 200 } : FabricmonConf).validate := by
  decide

/-- C8, amended: for every `ResetThreshold` outside `[25, 100]`, the error
returned by `FabricmonConf.validate` names the field `counter_reset_threshold`
and carries the permitted range 25 to 100; it is one fixed text, the same for
every such value. -/
theorem range_error_names_field_and_range (conf : FabricmonConf)
    (h : conf.ResetThreshold < 25 ∨ conf.ResetThreshold > 100) :
    conf.validate =
      some (Error.Errorf "counter_reset_threshold must be between 25 and 100") ∧
    strings.Contains "counter_reset_threshold must be between 25 and 100"
      "counter_reset_threshold" ∧
    strings.Contains "counter_reset_threshold must be between 25 and 100"
      "between 25 and 100" := by
  refine ⟨validate_of_out_of_range conf h, ?_, ?_⟩ <;> decide

/-- Witness of C8 (amended) at the threshold 101. -/
theorem range_error_names_field_and_range_witness :
    ({ ResetThreshold := 101 } : FabricmonConf).validate =
      some (Error.Errorf "counter_reset_threshold must be between 25 and 100") :=
  (range_error_names_field_and_range { ResetThreshold := 101 } (by decide)).1

/-- C9: for every text and every prior value of the receiver,
`LogLevel.UnmarshalText` either returns nil and sets the receiver to the
severity level the text names (one of the seven levels, whose name is the text
in lower case, `warn` standing for `warning`), or returns the error that
carries the unrecognized text and leaves the receiver as it was. For each of
the seven severity levels `l`, `UnmarshalText` on `l.String()` returns nil and
sets the receiver to `l`. -/
theorem UnmarshalText_sets_or_keeps (l : LogLevel) (text : String) :
    ((logrus.Recognized text ∧
        ∃ level, level ∈ logrus.AllLevels ∧
          ((LogLevel.mk level).String = strings.ToLower text ∨
            (level = logrus.WarnLevel ∧ strings.ToLower text = "warn")) ∧
          l.UnmarshalText text = (LogLevel.mk level, none)) ∨
      (¬ logrus.Recognized text ∧
        l.UnmarshalText text = (l, some (Error.notValidLevel text)))) ∧
    (∀ level, level ∈ logrus.AllLevels →
      l.UnmarshalText (LogLevel.mk level).String = (LogLevel.mk level, none)) := by
  constructor
  · by_cases hrec : logrus.Recognized text
    · left
      obtain ⟨level, hmem, hp, hname⟩ := logrus.ParseLevel_of_recognized text hrec
      refine ⟨hrec, level, hmem, hname, ?_⟩
      simp only [LogLevel.UnmarshalText, hp]
    · right
      refine ⟨hrec, ?_⟩
      simp only [LogLevel.UnmarshalText, logrus.ParseLevel_of_not_recognized text hrec]
  · intro level hmem
    simp only [logrus.AllLevels, List.mem_cons, List.not_mem_nil, or_false] at hmem
    have hp : logrus.ParseLevel (LogLevel.mk level).String = .ok level := by
      rcases hmem with h | h | h | h | h | h | h <;> subst h <;> decide
    simp only [LogLevel.UnmarshalText, hp]

/-- Witness of C9: the receiver holds `info`; the text `Debug` sets it to
`debug`, the text `verbose` leaves it, and the name of `warn` sets it to
`warn`. -/
theorem UnmarshalText_sets_or_keeps_witness :
    (LogLevel.mk logrus.InfoLevel).UnmarshalText "Debug" =
      (LogLevel.mk logrus.DebugLevel, none) ∧
    (LogLevel.mk logrus.InfoLevel).UnmarshalText "verbose" =
      (LogLevel.mk logrus.InfoLevel, some (Error.notValidLevel "verbose")) ∧
    (LogLevel.mk logrus.InfoLevel).UnmarshalText (LogLevel.mk logrus.WarnLevel).String =
      (LogLevel.mk logrus.WarnLevel, none) :=
  ⟨by decide, by decide,
   (UnmarshalText_sets_or_keeps (LogLevel.mk logrus.InfoLevel) "").2 logrus.WarnLevel
     (by decide)⟩

/-- C10: the validation pass ignores the unconstrained fields and changes
nothing. Two decoded configurations that agree on `ResetThreshold`,
`Topology.Enabled` and `Topology.OutputDir` get, under the same file system,
the same result of both validation steps and the same outcome of `ReadConfig`
(the same error or both nil, the same probes, both accepted or both rejected),
whatever their `Mkey`, `PollInterval`, `InfluxDB` entries and
`Logging.LogLevel` are; and an accepted configuration is returned exactly as
it was decoded. -/
theorem validation_ignores_unconstrained_fields (c1 c2 : FabricmonConf)
    (Decode1 Decode2 : FabricmonConf → Except Error FabricmonConf)
    (Access : String → Option Errno)
    (hd1 : Decode1 defaults = .ok c1) (hd2 : Decode2 defaults = .ok c2)
    (hthreshold : c1.ResetThreshold = c2.ResetThreshold)
    (henabled : c1.Topology.Enabled = c2.Topology.Enabled)
    (hdir : c1.Topology.OutputDir = c2.Topology.OutputDir) :
    c1.validate = c2.validate ∧
    c1.Topology.validate Access = c2.Topology.validate Access ∧
    (ReadConfig Decode1 Access).err = (ReadConfig Decode2 Access).err ∧
    (ReadConfig Decode1 Access).probes = (ReadConfig Decode2 Access).probes ∧
    ((ReadConfig Decode1 Access).conf = none ↔ (ReadConfig Decode2 Access).conf = none) ∧
    (∀ c, (ReadConfig Decode1 Access).conf = some c → c = c1) ∧
    (∀ c, (ReadConfig Decode2 Access).conf = some c → c = c2) := by
  have hv : c1.validate = c2.validate := by
    simp only [FabricmonConf.validate, hthreshold]
  have htop : c1.Topology = c2.Topology := by
    cases h1 : c1.Topology
    cases h2 : c2.Topology
    rw [h1] at henabled hdir
    rw [h2] at henabled hdir
    simp only at henabled hdir
    rw [henabled, hdir]
  have ht : c1.Topology.validate Access = c2.Topology.validate Access := by rw [htop]
  have key : ∀ (D : FabricmonConf → Except Error FabricmonConf) (c : FabricmonConf),
      D defaults = .ok c →
      ReadConfig D Access =
        match c.validate with
        | some e => ⟨none, some e, []⟩
        | none =>
          match c.Topology.validate Access with
          | (some e, probes) => ⟨none, some e, probes⟩
          | (none, probes) => ⟨some c, none, probes⟩ := by
    intro D c hD
    simp only [ReadConfig, hD]
  rw [key Decode1 c1 hd1, key Decode2 c2 hd2, ← hv, ← ht]
  refine ⟨rfl, rfl, ?_⟩
  cases c1.validate with
  | some e => simp
  | none =>
    rcases c1.Topology.validate Access with ⟨_ | e, probes⟩
    · simp
    · simp

/-- Witness of C10: two configurations with the threshold 30 and the topology
output disabled, which differ in every other field. -/
theorem validation_ignores_unconstrained_fields_witness :
    (ReadConfig (fun _ => .ok { ResetThreshold := 30, Mkey := 1, PollInterval := 5 })
        (fun _ => none)).err =
      (ReadConfig (fun _ => .ok
          { ResetThreshold := 30, Mkey := 2,
            InfluxDB := [{ URL := "u", Password := "p" }],
            Logging := { LogLevel := LogLevel.mk logrus.TraceLevel } })
        (fun _ => none)).err :=
  (validation_ignores_unconstrained_fields
    { ResetThreshold := 30, Mkey := 1, PollInterval := 5 }
    { ResetThreshold := 30, Mkey := 2,
      InfluxDB := [{ URL := "u", Password := "p" }],
      Logging := { LogLevel := LogLevel.mk logrus.TraceLevel } }
    (fun _ => .ok { ResetThreshold := 30, Mkey := 1, PollInterval := 5 })
    (fun _ => .ok
      { ResetThreshold := 30, Mkey := 2,
        InfluxDB := [{ URL := "u", Password := "p" }],
        Logging := { LogLevel := LogLevel.mk logrus.TraceLevel } })
    (fun _ => none) rfl rfl rfl rfl rfl).2.2.1

end config
